import Mathlib

set_option maxRecDepth 20000

/-! Shallow embedding of the media-source engine in
`src/agora_streaming_controlled_with_timestamp.cpp`: the `M3U8Parser`,
the MPEG-TS access-unit extractor `HelperTsH264FileParser`, and the
`PlaylistManager`.

Modelling conventions:
* C++ `std::string` values are `List Char` (`Str`), bytes are `Nat`.
* The filesystem, `curl` downloads and `mkdir -p` are an oracle record
  `Env`; a download does not mutate the oracle — the oracle already
  describes the post-download filesystem contents.
* C++ loops become fuel-based structural recursions; the fuel supplied by
  each wrapper strictly exceeds the number of iterations the loop can
  perform on the given input, so the fuel-exhaustion branch is unreachable.
* `std::stod` throwing is modelled as `Option`/`Except` error values.
-/

abbrev Str := List Char

/-- Model of `std::string::find(char)`: index of the first occurrence. -/
def findCharIdx (c : Char) : Str → Option Nat
  | [] => none
  | x :: xs => if x = c then some 0 else (findCharIdx c xs).map (· + 1)

/-- Model of `std::string::find_last_of(char)`: index of the last occurrence. -/
def findLastIdx (c : Char) (s : Str) : Option Nat :=
  (findCharIdx c s.reverse).map (fun i => s.length - 1 - i)

/-- Model of `std::string::find(str)`: index of the first occurrence of a substring. -/
def findSubIdx (pat : Str) : Str → Option Nat
  | [] => if pat.isPrefixOf ([] : Str) then some 0 else none
  | c :: cs => if pat.isPrefixOf (c :: cs) then some 0 else (findSubIdx pat cs).map (· + 1)

/-- Greedily consumes leading decimal digits, returning their value,
    how many were consumed, and the rest of the string. -/
def digitsVal : Str → Nat × Nat × Str
  | [] => (0, 0, [])
  | c :: cs =>
    if c.isDigit then
      let r := digitsVal cs
      ((c.toNat - 48) * 10 ^ r.2.1 + r.1, r.2.1 + 1, r.2.2)
    else (0, 0, c :: cs)

/-- Modelled from the external C++ standard library: partial model of
    `std::stod` on plain decimal strings — optional leading whitespace and
    sign, then digits with an optional fractional part; at least one digit
    must be consumed, otherwise the conversion throws
    `std::invalid_argument`, modelled as `none`. Trailing characters are
    ignored as in `std::stod`. Exponents, hex, infinities and NaNs are
    outside this model (unused by the repository's inputs). -/
def stodModel (s : Str) : Option Rat :=
  let s1 := s.dropWhile fun c => c == ' ' || c == '\t' || c == '\n' || c == '\r'
  let signRest : Rat × Str :=
    match s1 with
    | '-' :: r => (-1, r)
    | '+' :: r => (1, r)
    | r => (1, r)
  let ipart := digitsVal signRest.2
  let fpart : Nat × Nat × Str :=
    match ipart.2.2 with
    | '.' :: r => digitsVal r
    | r => (0, 0, r)
  if ipart.2.1 + fpart.2.1 = 0 then none
  else some (signRest.1 * ((ipart.1 : Rat) + (fpart.1 : Rat) / (10 : Rat) ^ fpart.2.1))

/-- Model of `struct M3U8Segment`. -/
structure M3U8Segment where
  url : Str
  localPath : Str
  duration : Rat
deriving DecidableEq

/-- Carriage-return stripping at the top of the `parseM3U8` line loop. -/
def stripCR (l : Str) : Str :=
  if l.getLast? == some '\r' then l.dropLast else l

/-- The `line.empty() || line[0] == '#'` test of `parseM3U8`. -/
def isDirectiveOrEmpty (l : Str) : Bool :=
  match l with
  | [] => true
  | c :: _ => c == '#'

def extinfTag : Str := "#EXTINF:".toList

/-- The URL resolution of a segment line in `parseM3U8`: verbatim for
    absolute `http(s)://` URLs, otherwise base URL concatenation. -/
def urlOfLine (base l : Str) : Str :=
  if "http://".toList.isPrefixOf l || "https://".toList.isPrefixOf l then l
  else base ++ l

/-- The substring of an `#EXTINF` directive passed to `std::stod`:
    between the first colon and the first comma. -/
def extinfDurStr (l : Str) : Str :=
  match findCharIdx ':' l, findCharIdx ',' l with
  | some c, some m => (l.drop (c + 1)).take (m - c - 1)
  | _, _ => []

/-- The line loop of `M3U8Parser::parseM3U8`. `Except.error` models the
    uncaught `std::stod` exception escaping the parser. -/
def parseLinesGo (base : Str) : List Str → Rat → List M3U8Segment →
    Except Unit (List M3U8Segment)
  | [], _, acc => .ok acc.reverse
  | l0 :: rest, dur, acc =>
    let line := stripCR l0
    if isDirectiveOrEmpty line then
      if extinfTag.isPrefixOf line then
        match findCharIdx ':' line, findCharIdx ',' line with
        | some c, some m =>
          match stodModel ((line.drop (c + 1)).take (m - c - 1)) with
          | some d => parseLinesGo base rest d acc
          | none => .error ()
        | _, _ => parseLinesGo base rest dur acc
      else parseLinesGo base rest dur acc
    else
      parseLinesGo base rest 0
        ({url := urlOfLine base line, localPath := [], duration := dur} :: acc)

/-- Model of `M3U8Parser::parseM3U8`. The document argument is the file
    oracle's view of `m3u8Path` (`none` models `!file.is_open()`); the
    returned `Bool` is the C++ return value `!segments_.empty()` (with
    `false` on open failure). -/
def parseM3U8 (doc : Option (List Str)) (baseUrl : Str) :
    Except Unit (List M3U8Segment × Bool) :=
  match doc with
  | none => .ok ([], false)
  | some lines => (parseLinesGo baseUrl lines 0 []).map fun segs => (segs, !segs.isEmpty)

/-! Claim-side view of the parser (spec wording), used for the refinement
    statements of C4 and C6. -/

/-- A non-comment, non-empty line (a segment line), in the spec's wording. -/
def isSegmentLine (l : Str) : Bool := !(isDirectiveOrEmpty l)

/-- A well-formed `#EXTINF` directive: has both a colon and a comma. -/
def isExtinfCC (l : Str) : Bool :=
  extinfTag.isPrefixOf l && (findCharIdx ':' l).isSome && (findCharIdx ',' l).isSome

/-- Duration value carried by an `#EXTINF` directive (0 when unparseable). -/
def extinfVal (l : Str) : Rat := (stodModel (extinfDurStr l)).getD 0

/-- Splits a (stripped) document into blocks: each segment line paired with
    the run of directive lines since the previous segment line, newest
    first. Trailing directives after the last segment line emit nothing. -/
def segBlocks : List Str → List Str → List (List Str × Str)
  | [], _ => []
  | l :: rest, pending =>
    if isSegmentLine l then (pending, l) :: segBlocks rest []
    else segBlocks rest (l :: pending)

/-- Spec-side duration of a segment: the value of the nearest preceding
    well-formed `#EXTINF` directive since the previously emitted segment,
    0.0 when absent. -/
def nearestExtinfDur (revBlock : List Str) : Rat :=
  match revBlock.find? isExtinfCC with
  | some l => extinfVal l
  | none => 0

def mkSpecSeg (base : Str) (bl : List Str × Str) : M3U8Segment :=
  {url := urlOfLine base bl.2, localPath := [], duration := nearestExtinfDur bl.1}

/-- Modelled from the spec's words (C4): one segment per non-comment,
    non-empty line, in file order; url verbatim for `http(s)://` lines and
    base-concatenated otherwise; duration from the nearest preceding
    `#EXTINF` since the previous emitted segment, 0.0 when absent. -/
def c4SpecSegs (doc : List Str) (base : Str) : List M3U8Segment :=
  (segBlocks (doc.map stripCR) []).map (mkSpecSeg base)

/-- Well-formedness of an M3U8 document: every `#EXTINF` directive that has
    both a colon and a comma carries a parseable duration (no `std::stod`
    exception). -/
def wfLines (ls : List Str) : Bool :=
  ls.all fun l => !(isExtinfCC l) || (stodModel (extinfDurStr l)).isSome

def wfDoc (doc : List Str) : Bool := wfLines (doc.map stripCR)

/-! Transport-stream demuxer model (`HelperTsH264FileParser`). -/

/-- Byte read `data_[i]`; all in-spec reads are within the mapped bounds. -/
def byteAt (data : List Nat) (i : Nat) : Nat := data.getD i 0

/-- Model of the `pid` helper: `((p[1] & 0x1F) << 8) | p[2]`. -/
def tsPid (data : List Nat) (o : Nat) : Nat :=
  ((byteAt data (o + 1) &&& 0x1F) <<< 8) ||| byteAt data (o + 2)

/-- Model of `payloadUnitStart`: `p[1] & 0x40`. -/
def pusiFlag (data : List Nat) (o : Nat) : Bool :=
  byteAt data (o + 1) &&& 0x40 != 0

/-- Model of `adaptFieldLen`: `none` is the C++ `-1` invalid marker. -/
def adaptFieldLen (data : List Nat) (o : Nat) : Option Nat :=
  if byteAt data (o + 3) &&& 0x20 == 0 then some 0
  else
    let len := byteAt data (o + 4) + 1
    if len > 183 then none else some len

/-- The IDR scan loop of `_readOnePes` over one packet payload:
    `for (i = 0; i + 5 < pay_len; ++i)` looking for a 3- or 4-byte start
    code followed by a NAL whose low 5 bits are 5; the 4-byte branch skips
    3 extra bytes. Fuel-based; `idrScan` supplies fuel exceeding the
    iteration count. -/
def idrScanGo (pay : List Nat) : Nat → Nat → Bool
  | _, 0 => false
  | i, fuel + 1 =>
    if i + 5 < pay.length then
      if byteAt pay i == 0 && byteAt pay (i + 1) == 0 then
        if byteAt pay (i + 2) == 1 then
          (byteAt pay (i + 3) &&& 0x1F == 5) || idrScanGo pay (i + 1) fuel
        else if byteAt pay (i + 2) == 0 && byteAt pay (i + 3) == 1 then
          (byteAt pay (i + 4) &&& 0x1F == 5) || idrScanGo pay (i + 4) fuel
        else idrScanGo pay (i + 1) fuel
      else idrScanGo pay (i + 1) fuel
    else false

def idrScan (pay : List Nat) : Bool := idrScanGo pay 0 (pay.length + 1)

/-- Result of `_readOnePes`: accumulated access unit, key-frame flag and
    the final value of the member `offset_`. -/
structure PesResult where
  au : List Nat
  key : Bool
  offset : Nat
deriving DecidableEq

/-- The 1 MiB scratch capacity `sizeof(au_buf)`. -/
def AU_BUF_SIZE : Nat := 1 <<< 20

/-- The packet loop of `HelperTsH264FileParser::_readOnePes`, one fuel per
    packet iteration (`readOnePes` supplies more fuel than packets fit in
    the file, so fuel exhaustion is unreachable). Mirrors the C++ loop:
    desync budget of 128 forcing `offset_ = size_`; sync resets the
    counter; PID filter; adaptation-field stripping; PES header stripping
    on payload-unit start; break (offset kept) on a second payload-unit
    start or on scratch overflow; per-packet IDR scan. The C++ locals are
    inlined: `pay` starts at `offset + 4 + adapt` (plus the PES header
    length `9 + data[pay + 8]` on a payload-unit start), and `pay_len` is
    `188 - 4 - adapt` (minus that header length). -/
def readOnePesGo (data : List Nat) (vpid : Nat) :
    Nat → Nat → List Nat → Bool → Bool → Nat → PesResult
  | 0, offset, au, _, key, _ => ⟨au, key, offset⟩
  | fuel + 1, offset, au, started, key, desyncCnt =>
    if offset + 188 ≤ data.length then
      if byteAt data offset != 0x47 then
        if desyncCnt + 1 ≥ 128 then ⟨au, key, data.length⟩
        else readOnePesGo data vpid fuel (offset + 188) au started key (desyncCnt + 1)
      else
        if tsPid data offset != vpid then
          readOnePesGo data vpid fuel (offset + 188) au started key 0
        else
          match adaptFieldLen data offset with
          | none => readOnePesGo data vpid fuel (offset + 188) au started key 0
          | some adapt =>
            if 188 - 4 - adapt == 0 || decide (offset + 4 + adapt > data.length) then
              readOnePesGo data vpid fuel (offset + 188) au started key 0
            else
              if pusiFlag data offset then
                if started then ⟨au, key, offset⟩
                else
                  if 188 - 4 - adapt < 9 then
                    readOnePesGo data vpid fuel (offset + 188) au true key 0
                  else if !(byteAt data (offset + 4 + adapt) == 0
                            && byteAt data (offset + 4 + adapt + 1) == 0
                            && byteAt data (offset + 4 + adapt + 2) == 1) then
                    readOnePesGo data vpid fuel (offset + 188) au true key 0
                  else
                    if 9 + byteAt data (offset + 4 + adapt + 8) > 188 - 4 - adapt then
                      readOnePesGo data vpid fuel (offset + 188) au true key 0
                    else
                      if au.length + (188 - 4 - adapt
                          - (9 + byteAt data (offset + 4 + adapt + 8))) > AU_BUF_SIZE then
                        ⟨au, key, offset⟩
                      else
                        readOnePesGo data vpid fuel (offset + 188)
                          (au ++ (data.drop (offset + 4 + adapt
                              + (9 + byteAt data (offset + 4 + adapt + 8)))).take
                            (188 - 4 - adapt - (9 + byteAt data (offset + 4 + adapt + 8))))
                          true
                          (key || idrScan ((data.drop (offset + 4 + adapt
                              + (9 + byteAt data (offset + 4 + adapt + 8)))).take
                            (188 - 4 - adapt - (9 + byteAt data (offset + 4 + adapt + 8))))) 0
              else
                if au.length + (188 - 4 - adapt) > AU_BUF_SIZE then ⟨au, key, offset⟩
                else
                  readOnePesGo data vpid fuel (offset + 188)
                    (au ++ (data.drop (offset + 4 + adapt)).take (188 - 4 - adapt)) started
                    (key || idrScan ((data.drop (offset + 4 + adapt)).take (188 - 4 - adapt))) 0
    else ⟨au, key, offset⟩

/-- Model of `_readOnePes`, starting from the current `offset_` with an
    empty scratch buffer. -/
def readOnePes (data : List Nat) (vpid : Nat) (offset : Nat) : PesResult :=
  readOnePesGo data vpid (data.length / 188 + 1) offset [] false false 0

/-- Demuxer state: the mapped bytes, the probed video PID, and the read
    offset (`file_path_`/`fd_` carry no behaviour in the model). -/
structure ParserState where
  data : List Nat
  vpid : Nat
  offset : Nat
deriving DecidableEq

/-- Model of `struct HelperH264Frame`. -/
structure HelperH264Frame where
  isKeyFrame : Bool
  buffer : List Nat
  bufferLen : Nat
deriving DecidableEq

/-- Model of `setFileParseRestart`: only `offset_ = 0`. -/
def setFileParseRestart (st : ParserState) : ParserState := {st with offset := 0}

/-- Model of `getH264Frame`: one `_readOnePes` call; zero bytes means EOF
    and resets `offset_` for looping. -/
def getH264Frame (st : ParserState) : Option HelperH264Frame × ParserState :=
  let r := readOnePes st.data st.vpid st.offset
  if r.au.length == 0 then (none, {st with offset := 0})
  else (some ⟨r.key, r.au, r.au.length⟩, {st with offset := r.offset})

/-! PAT and PMT probing (`_probeProgramPids`). -/

/-- The PMT stream-entry walk: returns the PID of the first stream of type
    `0x1B` (AVC/H.264). -/
def pmtStreams (data : List Nat) : Nat → Nat → Option Nat
  | _, 0 => none
  | idx, fuel + 1 =>
    if idx + 5 ≤ data.length then
      let stype := byteAt data idx
      let spid := ((byteAt data (idx + 1) &&& 0x1F) <<< 8) ||| byteAt data (idx + 2)
      let eslen := ((byteAt data (idx + 3) &&& 0x0F) <<< 8) ||| byteAt data (idx + 4)
      if stype == 0x1B then some spid
      else pmtStreams data (idx + 5 + eslen) fuel
    else none

/-- The packet scan for a program's PMT. -/
def pmtScan (data : List Nat) (pmtPid : Nat) : Nat → Nat → Option Nat
  | _, 0 => none
  | o2, fuel + 1 =>
    if o2 + 188 ≤ data.length then
      if byteAt data o2 != 0x47 || tsPid data o2 != pmtPid || !pusiFlag data o2 then
        pmtScan data pmtPid (o2 + 188) fuel
      else
        match adaptFieldLen data o2 with
        | none => pmtScan data pmtPid (o2 + 188) fuel
        | some a2 =>
          let pmtIdx := o2 + 4 + a2
          if pmtIdx ≥ data.length then pmtScan data pmtPid (o2 + 188) fuel
          else
            let ptr2 := byteAt data pmtIdx
            match pmtStreams data (pmtIdx + 1 + ptr2 + 12) (data.length + 1) with
            | some v => some v
            | none => pmtScan data pmtPid (o2 + 188) fuel
    else none

/-- The PAT program-entry walk: for each nonzero program, scan for its PMT. -/
def patEntries (data : List Nat) : Nat → Nat → Option Nat
  | _, 0 => none
  | patIdx, fuel + 1 =>
    if patIdx + 4 ≤ data.length then
      let program := (byteAt data patIdx <<< 8) ||| byteAt data (patIdx + 1)
      let pmtPid := ((byteAt data (patIdx + 2) &&& 0x1F) <<< 8) ||| byteAt data (patIdx + 3)
      if program != 0 then
        match pmtScan data pmtPid 0 (data.length + 1) with
        | some v => some v
        | none => patEntries data (patIdx + 4) fuel
      else patEntries data (patIdx + 4) fuel
    else none

/-- The outer packet scan of `_probeProgramPids` looking for the PAT; after
    the first valid PAT packet the entry walk's outcome is final (the C++
    `break`). -/
def probePatScan (data : List Nat) : Nat → Nat → Option Nat
  | _, 0 => none
  | o, fuel + 1 =>
    if o + 188 ≤ data.length then
      if byteAt data o != 0x47 || tsPid data o != 0 || !pusiFlag data o then
        probePatScan data (o + 188) fuel
      else
        match adaptFieldLen data o with
        | none => probePatScan data (o + 188) fuel
        | some adapt =>
          let patIdx := o + 4 + adapt
          if patIdx ≥ data.length then probePatScan data (o + 188) fuel
          else
            let pointer := byteAt data patIdx
            patEntries data (patIdx + 1 + pointer + 8) (data.length + 1)
    else none

/-- Model of `_probeProgramPids`: `some videoPid` on success. -/
def probeProgramPids (data : List Nat) : Option Nat :=
  probePatScan data 0 (data.length + 1)

/-! Claim-side IDR predicate (spec wording for C3). -/

/-- The payload contains, at index `i`, a 3-byte (`00 00 01`) or 4-byte
    (`00 00 00 01`) start-code prefix followed by a NAL unit whose low 5
    type bits equal 5 (IDR slice). -/
def hasIdrAt (l : List Nat) (i : Nat) : Bool :=
  (decide (i + 4 ≤ l.length) && (byteAt l i == 0) && (byteAt l (i + 1) == 0)
    && (byteAt l (i + 2) == 1) && (byteAt l (i + 3) &&& 0x1F == 5))
  || (decide (i + 5 ≤ l.length) && (byteAt l i == 0) && (byteAt l (i + 1) == 0)
    && (byteAt l (i + 2) == 0) && (byteAt l (i + 3) == 1)
    && (byteAt l (i + 4) &&& 0x1F == 5))

/-- The payload contains an IDR start-code pattern somewhere. -/
def containsIdr (l : List Nat) : Bool :=
  (List.range l.length).any (hasIdrAt l)

/-! Playlist manager model (`PlaylistManager`). External effects — the
    filesystem, `mkdir -p` and `curl` — are an oracle `Env`; downloads do
    not mutate the oracle (it already describes the post-download
    contents, matching the cache-then-read behaviour of the C++). -/

structure Env where
  textFile : Str → Option (List Str)
  binFile : Str → Option (List Nat)
  fileExistsFn : Str → Bool
  mkdirOk : Str → Bool
  downloadOk : Str → Str → Bool

/-- Creating a `HelperTsH264FileParser` and calling `initialize()` on it:
    open/mmap the file (`binFile`, `none` on failure) and probe the PIDs.
    The returned parser state is kept even when initialization fails, as
    the C++ keeps the constructed object in `currentParser_`. -/
def parserNew (env : Env) (path : Str) : ParserState × Bool :=
  match env.binFile path with
  | none => (⟨[], 0, 0⟩, false)
  | some data =>
    match probeProgramPids data with
    | some v => (⟨data, v, 0⟩, true)
    | none => (⟨data, 0, 0⟩, false)

structure PMState where
  segmentPaths : List Str
  currentSegmentIndex : Nat
  currentParser : Option ParserState
  isPlaylist : Bool
  currentVideoFile : Str
  newSegmentPaths : List Str
  newVideoFile : Str
  newPlaylistReady : Bool
deriving DecidableEq

/-- Model of `PlaylistManager::isM3U8`. -/
def isM3U8 (path : Str) : Bool :=
  decide (path.length ≥ 5) && (path.drop (path.length - 5) == ".m3u8".toList)

/-- Model of `PlaylistManager::isURL`. -/
def isURL (path : Str) : Bool :=
  "http://".toList.isPrefixOf path || "https://".toList.isPrefixOf path

/-- Model of `getBaseUrl`. -/
def getBaseUrl (url : Str) : Str :=
  match findLastIdx '/' url with
  | some i => url.take (i + 1)
  | none => url

/-- Model of `extractCachePath`. -/
def extractCachePath (url : Str) : Str :=
  match findSubIdx "/vba/".toList url with
  | none =>
    match findLastIdx '/' url with
    | some i => url.drop (i + 1)
    | none => "default".toList
  | some vbaPos => url.drop (vbaPos + 1)

def cacheBasePath : Str := "/home/ubuntu/tscache".toList

/-- Model of `downloadFile`: create the destination directory, then curl. -/
def downloadFileM (env : Env) (url outputPath : Str) : Bool :=
  match findLastIdx '/' outputPath with
  | some i =>
    if !env.mkdirOk (outputPath.take i) then false
    else env.downloadOk url outputPath
  | none => env.downloadOk url outputPath

/-- Model of `M3U8Parser::downloadSegments`: derive each segment's cache
    path from the last URL component, download when not cached, stop at the
    first failure. Returns the updated segment list. -/
def downloadSegments (env : Env) (cacheBase : Str) :
    List M3U8Segment → Bool × List M3U8Segment
  | [] => (true, [])
  | seg :: rest =>
    let filename :=
      match findLastIdx '/' seg.url with
      | some i => seg.url.drop (i + 1)
      | none => seg.url
    let seg' := {seg with localPath := cacheBase ++ '/' :: filename}
    if !env.fileExistsFn seg'.localPath && !downloadFileM env seg.url seg'.localPath then
      (false, seg' :: rest)
    else
      let r := downloadSegments env cacheBase rest
      (r.1, seg' :: r.2)

/-- The segment-path construction loop at the end of
    `internalSetupPlaylist`: cached local paths for URL inputs, paths
    relative to the M3U8 file's directory otherwise. -/
def buildSegmentPaths (inputIsURL : Bool) (m3u8Path : Str) :
    List M3U8Segment → List Str
  | [] => []
  | seg :: rest =>
    let p :=
      if inputIsURL then seg.localPath
      else
        if seg.url.head? != some '/' then
          match findLastIdx '/' m3u8Path with
          | some i => m3u8Path.take (i + 1) ++ seg.url
          | none => seg.url
        else seg.url
    p :: buildSegmentPaths inputIsURL m3u8Path rest

/-- Model of `PlaylistManager::internalSetupSingleFile`. The result is
    `(return value, updated manager state, paths out-param, isPlaylist
    out-param)`: the C++ writes the `paths`/`isPlaylist` reference
    parameters but ALSO writes the members `currentSegmentIndex_` and
    `currentParser_` directly. -/
def internalSetupSingleFile (env : Env) (path : Str) (st : PMState) :
    Bool × PMState × List Str × Bool :=
  let pr := parserNew env path
  (pr.2, {st with currentSegmentIndex := 0, currentParser := some pr.1}, [path], false)

/-- Model of `PlaylistManager::internalSetupPlaylist`, same result shape as
    `internalSetupSingleFile`. `currentSegmentIndex_ = 0` happens at the
    top unconditionally; `currentParser_` is replaced only when the final
    demuxer construction is reached. `Except.error` propagates the
    `std::stod` exception out of `parseM3U8`. -/
def internalSetupPlaylist (env : Env) (path : Str) (st0 : PMState) :
    Except Unit (Bool × PMState × List Str × Bool) :=
  let st := {st0 with currentSegmentIndex := 0}
  let resolve : Option (Str × Str) :=
    if isURL path then
      let cachePath := extractCachePath path
      let fullCachePath := cacheBasePath ++ '/' :: cachePath
      let dirOk :=
        match findLastIdx '/' fullCachePath with
        | some i => env.mkdirOk (fullCachePath.take i)
        | none => true
      if !dirOk then none
      else if !env.fileExistsFn fullCachePath && !downloadFileM env path fullCachePath then
        none
      else some (fullCachePath, getBaseUrl path)
    else some (path, [])
  match resolve with
  | none => .ok (false, st, [], true)
  | some mp =>
    match parseM3U8 (env.textFile mp.1) mp.2 with
    | .error e => .error e
    | .ok pres =>
      if !pres.2 then .ok (false, st, [], true)
      else
        let dl : Option (List M3U8Segment) :=
          if isURL path then
            let cachePath := extractCachePath path
            let cacheDir := cacheBasePath ++ '/' ::
              (match findLastIdx '/' cachePath with
               | some i => cachePath.take i
               | none => cachePath)
            let r := downloadSegments env cacheDir pres.1
            if r.1 then some r.2 else none
          else some pres.1
        match dl with
        | none => .ok (false, st, [], true)
        | some segs =>
          let paths := buildSegmentPaths (isURL path) mp.1 segs
          if paths.isEmpty then .ok (false, st, [], true)
          else
            let pr := parserNew env (paths.headD [])
            .ok (pr.2, {st with currentParser := some pr.1}, paths, true)

/-- Model of `PlaylistManager::initialize`: the out-params are the members
    `segmentPaths_` / `isPlaylist_` themselves. -/
def pmInit (env : Env) (input : Str) (st : PMState) : Except Unit (Bool × PMState) :=
  let st1 := {st with currentVideoFile := input}
  if isM3U8 input then
    match internalSetupPlaylist env input st1 with
    | .error e => .error e
    | .ok r => .ok (r.1, {r.2.1 with segmentPaths := r.2.2.1, isPlaylist := r.2.2.2})
  else
    let r := internalSetupSingleFile env input st1
    .ok (r.1, {r.2.1 with segmentPaths := r.2.2.1, isPlaylist := r.2.2.2})

/-- Model of `PlaylistManager::preloadNewPlaylist`: the setup runs with
    temporary out-params; on success the pending triple is published under
    the lock. (The internal setup's direct member writes are visible in
    the returned state.) -/
def preloadNewPlaylist (env : Env) (input : Str) (st : PMState) :
    Except Unit (Bool × PMState) :=
  let r : Except Unit (Bool × PMState × List Str × Bool) :=
    if isM3U8 input then internalSetupPlaylist env input st
    else .ok (internalSetupSingleFile env input st)
  match r with
  | .error e => .error e
  | .ok r =>
    if r.1 then
      .ok (true, {r.2.1 with newSegmentPaths := r.2.2.1, newVideoFile := input,
                             newPlaylistReady := true})
    else .ok (false, r.2.1)

/-- Model of `PlaylistManager::switchToNewPlaylist`. `std::move` leaves
    the pending path vector empty. -/
def switchToNewPlaylist (env : Env) (st : PMState) : Bool × PMState :=
  if !st.newPlaylistReady then (false, st)
  else
    let st1 := {st with segmentPaths := st.newSegmentPaths,
                        newSegmentPaths := ([] : List Str),
                        currentVideoFile := st.newVideoFile,
                        currentSegmentIndex := 0,
                        newPlaylistReady := false}
    if !st1.segmentPaths.isEmpty then
      let pr := parserNew env (st1.segmentPaths.headD [])
      (pr.2, {st1 with currentParser := some pr.1})
    else (false, st1)

/-- Model of `PlaylistManager::getNextFrame`: pull a frame; on EOF advance
    (mod segment count) and retry once for a multi-segment playlist, else
    restart the same demuxer in place and retry once. -/
def getNextFrame (env : Env) (st : PMState) : Option HelperH264Frame × PMState :=
  match st.currentParser with
  | none => (none, st)
  | some p =>
    let r := getH264Frame p
    match r.1 with
    | some f => (some f, {st with currentParser := some r.2})
    | none =>
      if st.isPlaylist = true ∧ st.segmentPaths.length > 1 then
        let idx := (st.currentSegmentIndex + 1) % st.segmentPaths.length
        let pr := parserNew env (st.segmentPaths.getD idx [])
        if pr.2 then
          let r2 := getH264Frame pr.1
          (r2.1, {st with currentSegmentIndex := idx, currentParser := some r2.2})
        else (none, {st with currentSegmentIndex := idx, currentParser := some pr.1})
      else
        let r2 := getH264Frame (setFileParseRestart r.2)
        (r2.1, {st with currentParser := some r2.2})

/-! Concrete instances used by witnesses and counterexamples. -/

/-- Oracle with an empty filesystem and failing external commands. -/
def envEmpty : Env :=
  ⟨fun _ => none, fun _ => none, fun _ => false, fun _ => false, fun _ _ => false⟩

/-- TS payload (after PES-header stripping) whose IDR start code sits in the
    final five bytes of the packet's payload chunk. -/
def c3xPayload : List Nat := List.replicate 170 0xAA ++ [0, 0, 1, 0x65, 0xAA]

/-- One 188-byte TS packet on PID 0x100 with payload-unit start, a 9-byte
    PES header and `c3xPayload` as elementary-stream bytes. -/
def c3xData : List Nat :=
  [0x47, 0x41, 0x00, 0x10] ++ [0, 0, 1, 0xE0, 0, 0, 0x80, 0, 0] ++ c3xPayload

/-- Like `c3xPayload` but with the IDR start code at the front, inside the
    scanned range. -/
def c3wPayload : List Nat := [0, 0, 1, 0x65] ++ List.replicate 171 0xAA

def c3wData : List Nat :=
  [0x47, 0x41, 0x00, 0x10] ++ [0, 0, 1, 0xE0, 0, 0, 0x80, 0, 0] ++ c3wPayload

/-- Manager state streaming `a.ts` (active parser mid-file at index 1 of a
    two-segment list), with no pending preload. -/
def stC1 : PMState :=
  {segmentPaths := ["a.ts".toList, "x.ts".toList], currentSegmentIndex := 1,
   currentParser := some ⟨[7], 5, 3⟩, isPlaylist := true,
   currentVideoFile := "a.m3u8".toList,
   newSegmentPaths := [], newVideoFile := [], newPlaylistReady := false}

/-- A single TS packet on PID 0 without payload-unit start: PID probing
    fails on it, yet a demuxer reading it with `video_pid_ = 0` would
    accumulate its 184 payload bytes into an access unit. -/
def dC9 : List Nat := [0x47, 0, 0, 0x10] ++ List.replicate 184 0xAA

def envC9 : Env :=
  {envEmpty with binFile := fun p => if p = "b.ts".toList then some dC9 else none}

/-- Playlist state whose active demuxer is at EOF and whose next segment
    `b.ts` fails demuxer initialization. -/
def stC9 : PMState :=
  {segmentPaths := ["a.ts".toList, "b.ts".toList], currentSegmentIndex := 0,
   currentParser := some ⟨[], 0, 0⟩, isPlaylist := true,
   currentVideoFile := "a.ts".toList,
   newSegmentPaths := [], newVideoFile := [], newPlaylistReady := false}

/-- Single-file variant of `stC9` (EOF active parser, `isPlaylist_` false). -/
def stC9w : PMState := {stC9 with isPlaylist := false}

/-- Single-file manager state used by the C5 witness. -/
def stC5 : PMState :=
  {segmentPaths := ["a.ts".toList], currentSegmentIndex := 0,
   currentParser := some ⟨[], 0, 0⟩, isPlaylist := false,
   currentVideoFile := "a.ts".toList,
   newSegmentPaths := [], newVideoFile := [], newPlaylistReady := false}

/-- Ready-to-switch manager state used by the C2 witness. -/
def stC2 : PMState :=
  {segmentPaths := [], currentSegmentIndex := 5, currentParser := none,
   isPlaylist := false, currentVideoFile := [],
   newSegmentPaths := ["b.ts".toList], newVideoFile := "b.ts".toList,
   newPlaylistReady := true}

/-- Document whose only line is an `#EXTINF` directive with an unparseable
    duration: `std::stod` throws. -/
def docC6 : List Str := ["#EXTINF:x,".toList]

/-- A small well-formed document: two segment lines, the first with an
    `#EXTINF` duration. -/
def docC4w : List Str :=
  ["#EXTM3U".toList, "#EXTINF:2.5,seg a".toList, "a.ts".toList, "b.ts".toList]

/-! Theorems. -/

/-- C8: restarting a single-file TS source only resets the read offset —
    the mapped bytes and the probed video PID are reused — so the next
    `getH264Frame` call returns exactly the result of the very first call
    after `initialize` (same payload bytes, length and keyframe flag). -/
theorem c8_restart_reproduces_first (d : List Nat) (v off : Nat) :
    setFileParseRestart ⟨d, v, off⟩ = ⟨d, v, 0⟩ ∧
    getH264Frame (setFileParseRestart ⟨d, v, off⟩) = getH264Frame ⟨d, v, 0⟩ :=
  ⟨rfl, rfl⟩

/-- C1 (code bug): `preloadNewPlaylist` on a failing source mutates the
    active state — it resets `currentSegmentIndex_` to 0 and replaces
    `currentParser_` with the (failed) new parser — even though the pending
    triple stays unset. The active fields are NOT left untouched. -/
theorem c1_preload_mutates_active_state :
    preloadNewPlaylist envEmpty ("b.ts".toList) stC1 =
      .ok (false, {stC1 with currentSegmentIndex := 0,
                             currentParser := some ⟨[], 0, 0⟩}) ∧
    stC1.currentSegmentIndex = 1 ∧
    stC1.currentParser = some ⟨[7], 5, 3⟩ ∧
    ({stC1 with currentSegmentIndex := 0,
                currentParser := some ⟨[], 0, 0⟩} : PMState).newPlaylistReady = false :=
  ⟨rfl, rfl, rfl, rfl⟩

/-- C2: `switchToNewPlaylist` is a state-preserving no-op returning `false`
    when no pending playlist is ready; otherwise (with the pending list
    non-empty, an invariant of every published preload) it installs the
    pending segment list and source identifier, resets the segment index,
    creates and initializes a demuxer on the new first segment, clears the
    ready flag, and returns that demuxer initialization's success. -/
theorem c2_switch_characterization (env : Env) (st : PMState) :
    (st.newPlaylistReady = false → switchToNewPlaylist env st = (false, st)) ∧
    (st.newPlaylistReady = true → st.newSegmentPaths ≠ [] →
      switchToNewPlaylist env st =
        ((parserNew env (st.newSegmentPaths.headD [])).2,
         {st with segmentPaths := st.newSegmentPaths,
                  newSegmentPaths := ([] : List Str),
                  currentVideoFile := st.newVideoFile,
                  currentSegmentIndex := 0,
                  newPlaylistReady := false,
                  currentParser := some (parserNew env (st.newSegmentPaths.headD [])).1})) := by
  constructor
  · intro h
    simp [switchToNewPlaylist, h]
  · intro h hne
    have hemp : st.newSegmentPaths.isEmpty = false := by
      cases hq : st.newSegmentPaths with
      | nil => exact absurd hq hne
      | cons a t => rfl
    simp [switchToNewPlaylist, h, hemp]

/-- Witness for C2 at a concrete ready state. -/
theorem c2_switch_witness :
    switchToNewPlaylist envEmpty stC2 =
      ((parserNew envEmpty (stC2.newSegmentPaths.headD [])).2,
       {stC2 with segmentPaths := stC2.newSegmentPaths,
                  newSegmentPaths := ([] : List Str),
                  currentVideoFile := stC2.newVideoFile,
                  currentSegmentIndex := 0,
                  newPlaylistReady := false,
                  currentParser := some (parserNew envEmpty (stC2.newSegmentPaths.headD [])).1}) :=
  (c2_switch_characterization envEmpty stC2).2 rfl (by decide)

/-- C3 counterexample: a TS source whose single access unit contains the
    3-byte start code `00 00 01` followed by an IDR NAL (type 5) in the
    final five bytes of the packet payload, yet `isKeyFrame` is `false` —
    the scan bound `i + 5 < pay_len` misses it. -/
theorem c3_counterexample :
    getH264Frame ⟨c3xData, 256, 0⟩ =
      (some ⟨false, c3xPayload, 175⟩, ⟨c3xData, 256, 188⟩) ∧
    containsIdr c3xPayload = true :=
  ⟨by decide, by decide⟩

/-- C9 counterexample: on EOF with a multi-segment playlist, when the fresh
    demuxer on the advanced segment fails to initialize, `getNextFrame`
    returns `none` WITHOUT retrying extraction — although an extraction
    retry on that very demuxer state would have produced an access unit. -/
theorem c9_counterexample :
    (getNextFrame envC9 stC9).1 = none ∧
    (getNextFrame envC9 stC9).2.currentSegmentIndex = 1 ∧
    (getNextFrame envC9 stC9).2.currentParser = some ⟨dC9, 0, 0⟩ ∧
    ((getH264Frame ⟨dC9, 0, 0⟩).1).isSome = true :=
  ⟨by decide, by decide, by decide, by decide⟩

/-- Byte lookup in a replicated buffer. -/
theorem byteAt_replicate (n a i : Nat) :
    byteAt (List.replicate n a) i = if i < n then a else 0 := by
  simp only [byteAt, List.getD_eq_getElem?_getD, List.getElem?_replicate]
  split <;> rfl

/-- A run of `k` consecutive packet positions without the sync byte, with
    `k` exhausting the remaining desync budget, aborts `_readOnePes`: the
    offset is forced to the file size and the accumulated state is
    returned as-is. -/
theorem readOnePesGo_desync (data : List Nat) (vpid : Nat) :
    ∀ (k fuel offset : Nat) (au : List Nat) (started key : Bool) (dcnt : Nat),
      1 ≤ k → dcnt + k = 128 → k ≤ fuel →
      (∀ j, j < k → byteAt data (offset + 188 * j) ≠ 0x47) →
      offset + 188 * k ≤ data.length →
      readOnePesGo data vpid fuel offset au started key dcnt = ⟨au, key, data.length⟩ := by
  intro k
  induction k with
  | zero =>
    intro fuel offset au started key dcnt h1 _ _ _ _
    exact absurd h1 (by omega)
  | succ m ih =>
    intro fuel offset au started key dcnt h1 hsum hfuel hbad hlen
    obtain ⟨f, rfl⟩ : ∃ f, fuel = f + 1 := ⟨fuel - 1, by omega⟩
    have hb : offset + 188 ≤ data.length := by omega
    have hbad0 : byteAt data offset ≠ 0x47 := by
      have := hbad 0 (by omega)
      simpa using this
    simp only [readOnePesGo]
    rw [if_pos hb, if_pos (by simpa [bne_iff_ne] using hbad0)]
    by_cases hd : dcnt + 1 ≥ 128
    · rw [if_pos hd]
    · rw [if_neg hd]
      have hm1 : 1 ≤ m := by omega
      apply ih f (offset + 188) au started key (dcnt + 1) hm1 (by omega) (by omega)
      · intro j hj
        have hs := hbad (j + 1) (by omega)
        have e : offset + 188 * (j + 1) = offset + 188 + 188 * j := by ring
        rw [e] at hs
        exact hs
      · omega

/-- C7: 128 consecutive packet-aligned non-sync positions force the read
    offset to the file size and stop extraction there; with nothing
    accumulated the demuxer reports EOF (`getH264Frame` yields `none`, the
    signal the Playlist Manager's EOF handling consumes); and a sync byte
    resets the desync counter to zero for the continuation. -/
theorem c7_desync_abort (data : List Nat) (vpid offset : Nat)
    (hbad : ∀ j, j < 128 → byteAt data (offset + 188 * j) ≠ 0x47)
    (hlen : offset + 188 * 128 ≤ data.length) :
    readOnePes data vpid offset = ⟨[], false, data.length⟩ ∧
    getH264Frame ⟨data, vpid, offset⟩ = (none, ⟨data, vpid, 0⟩) ∧
    (∀ fuel o (au : List Nat) (s k : Bool) (d : Nat),
      o + 188 ≤ data.length → byteAt data o = 0x47 → tsPid data o ≠ vpid →
      readOnePesGo data vpid (fuel + 1) o au s k d =
        readOnePesGo data vpid fuel (o + 188) au s k 0) := by
  have h1 : readOnePes data vpid offset = ⟨[], false, data.length⟩ :=
    readOnePesGo_desync data vpid 128 (data.length / 188 + 1) offset [] false false 0
      (by omega) (by omega) (by omega) hbad hlen
  refine ⟨h1, ?_, ?_⟩
  · simp [getH264Frame, h1]
  · intro fuel o au s k d hb hsync hpid
    simp only [readOnePesGo]
    rw [if_pos hb]
    simp [hsync, bne_iff_ne, hpid]

/-- Witness for C7: a file of 128 all-zero packets aborts with the offset
    at the file size and an EOF result. -/
theorem c7_desync_witness :
    readOnePes (List.replicate (188 * 128) 0) 33 0 = ⟨[], false, 188 * 128⟩ := by
  have h := c7_desync_abort (List.replicate (188 * 128) 0) 33 0
    (fun j hj => by rw [byteAt_replicate]; split <;> omega)
    (by rw [List.length_replicate])
  rw [h.1, List.length_replicate]

/-- C9 (amended): on EOF, a multi-segment playlist advances the index
    modulo the segment count and creates a fresh demuxer on that segment;
    extraction is retried exactly once ONLY when that demuxer initializes
    successfully (otherwise `none` is returned with the advanced index and
    the failed demuxer installed); a single-file source restarts the same
    demuxer in place and retries once. -/
theorem c9_eof_handling (env : Env) (st : PMState) (p p' : ParserState)
    (hp : st.currentParser = some p) (heof : getH264Frame p = (none, p')) :
    (st.isPlaylist = true → st.segmentPaths.length > 1 →
      getNextFrame env st =
        (if (parserNew env (st.segmentPaths.getD
              ((st.currentSegmentIndex + 1) % st.segmentPaths.length) [])).2 then
          ((getH264Frame (parserNew env (st.segmentPaths.getD
              ((st.currentSegmentIndex + 1) % st.segmentPaths.length) [])).1).1,
           {st with
              currentSegmentIndex := (st.currentSegmentIndex + 1) % st.segmentPaths.length,
              currentParser := some (getH264Frame (parserNew env (st.segmentPaths.getD
                ((st.currentSegmentIndex + 1) % st.segmentPaths.length) [])).1).2})
        else
          (none,
           {st with
              currentSegmentIndex := (st.currentSegmentIndex + 1) % st.segmentPaths.length,
              currentParser := some (parserNew env (st.segmentPaths.getD
                ((st.currentSegmentIndex + 1) % st.segmentPaths.length) [])).1}))) ∧
    (st.isPlaylist = false →
      getNextFrame env st =
        ((getH264Frame (setFileParseRestart p')).1,
         {st with currentParser := some (getH264Frame (setFileParseRestart p')).2})) := by
  constructor
  · intro h1 h2
    simp only [getNextFrame, hp, heof]
    rw [if_pos ⟨h1, h2⟩]
  · intro h1
    simp only [getNextFrame, hp, heof]
    rw [if_neg (by simp [h1])]

/-- Witness for C9 (amended) on a concrete single-file state at EOF. -/
theorem c9_eof_witness :
    getNextFrame envEmpty stC9w =
      ((getH264Frame (setFileParseRestart ⟨[], 0, 0⟩)).1,
       {stC9w with currentParser := some (getH264Frame (setFileParseRestart ⟨[], 0, 0⟩)).2}) :=
  (c9_eof_handling envEmpty stC9w ⟨[], 0, 0⟩ ⟨[], 0, 0⟩ rfl rfl).2 rfl


/-- Any successful or failed run of `internalSetupPlaylist` leaves every
    manager field except `currentSegmentIndex_` and `currentParser_`
    untouched (those two ARE written; see C1). -/
theorem internalSetupPlaylist_shape (env : Env) (path : Str) (st : PMState)
    (b : Bool) (st' : PMState) (paths : List Str) (ipl : Bool)
    (h : internalSetupPlaylist env path st = .ok (b, st', paths, ipl)) :
    st'.isPlaylist = st.isPlaylist ∧ st'.segmentPaths = st.segmentPaths ∧
    st'.currentVideoFile = st.currentVideoFile ∧
    st'.newSegmentPaths = st.newSegmentPaths ∧ st'.newVideoFile = st.newVideoFile ∧
    st'.newPlaylistReady = st.newPlaylistReady := by
  simp only [internalSetupPlaylist] at h
  repeat' split at h
  all_goals cases h
  all_goals simp

/-- C5: neither `preloadNewPlaylist` nor `switchToNewPlaylist` ever writes
    the `isPlaylist_` member, so after a switch it retains the value set by
    the last `initialize`; with `isPlaylist_ = false`, `getNextFrame`
    always takes the single-file restart branch on EOF and never advances
    `currentSegmentIndex_` or the segment list. -/
theorem c5_isPlaylist_retention (env : Env) (input : Str) (st : PMState) :
    (∀ b st', preloadNewPlaylist env input st = .ok (b, st') →
      st'.isPlaylist = st.isPlaylist) ∧
    (switchToNewPlaylist env st).2.isPlaylist = st.isPlaylist ∧
    (st.isPlaylist = false →
      (getNextFrame env st).2.currentSegmentIndex = st.currentSegmentIndex ∧
      (getNextFrame env st).2.isPlaylist = false ∧
      (getNextFrame env st).2.segmentPaths = st.segmentPaths) := by
  refine ⟨?_, ?_, ?_⟩
  · intro b st' h
    simp only [preloadNewPlaylist] at h
    split at h
    · cases h
    · rename_i r heq
      have hr : r.2.1.isPlaylist = st.isPlaylist := by
        by_cases hm : isM3U8 input = true
        · rw [if_pos hm] at heq
          exact (internalSetupPlaylist_shape env input st r.1 r.2.1 r.2.2.1 r.2.2.2
            (by rw [heq])).1
        · rw [if_neg hm] at heq
          cases heq
          simp [internalSetupSingleFile]
      split at h <;> (cases h; simp [hr])
  · simp only [switchToNewPlaylist]
    split
    · simp
    · split <;> simp
  · intro h1
    simp only [getNextFrame]
    cases hcp : st.currentParser with
    | none => simp [h1]
    | some p =>
      rcases hq : getH264Frame p with ⟨fo, p2⟩
      simp only [hq]
      cases fo with
      | some f => simp [h1]
      | none =>
        rw [if_neg (by simp [h1])]
        simp [h1]

/-- Witness for C5 at a concrete single-file state. -/
theorem c5_retention_witness :
    (getNextFrame envEmpty stC5).2.currentSegmentIndex = stC5.currentSegmentIndex ∧
    (getNextFrame envEmpty stC5).2.isPlaylist = false ∧
    (getNextFrame envEmpty stC5).2.segmentPaths = stC5.segmentPaths :=
  (c5_isPlaylist_retention envEmpty [] stC5).2.2 rfl

/-- Reading inside the left part of an append. -/
theorem byteAt_append_left (a b : List Nat) (i : Nat) (h : i < a.length) :
    byteAt (a ++ b) i = byteAt a i := by
  simp only [byteAt]
  rw [List.getD_append _ _ _ _ h]

/-- Reading inside the right part of an append. -/
theorem byteAt_append_right (a b : List Nat) (i : Nat) :
    byteAt (a ++ b) (a.length + i) = byteAt b i := by
  simp only [byteAt]
  rw [List.getD_append_right _ _ _ _ (by omega)]
  congr 1
  omega

/-- An IDR pattern survives appending bytes on the right. -/
theorem hasIdrAt_append_left (a b : List Nat) (i : Nat) (h : hasIdrAt a i = true) :
    hasIdrAt (a ++ b) i = true := by
  simp only [hasIdrAt, Bool.or_eq_true, Bool.and_eq_true, decide_eq_true_eq] at h ⊢
  rcases h with ⟨⟨⟨⟨hb, h0⟩, h1⟩, h2⟩, h3⟩ | ⟨⟨⟨⟨⟨hb, h0⟩, h1⟩, h2⟩, h3⟩, h4⟩
  · refine Or.inl ⟨⟨⟨⟨by simp [List.length_append]; omega, ?_⟩, ?_⟩, ?_⟩, ?_⟩ <;>
      rw [byteAt_append_left a b _ (by omega)] <;> assumption
  · refine Or.inr ⟨⟨⟨⟨⟨by simp [List.length_append]; omega, ?_⟩, ?_⟩, ?_⟩, ?_⟩, ?_⟩ <;>
      rw [byteAt_append_left a b _ (by omega)] <;> assumption

/-- An IDR pattern survives prepending bytes on the left (shifted). -/
theorem hasIdrAt_shift (a b : List Nat) (i : Nat) (h : hasIdrAt b i = true) :
    hasIdrAt (a ++ b) (a.length + i) = true := by
  simp only [hasIdrAt, Bool.or_eq_true, Bool.and_eq_true, decide_eq_true_eq] at h ⊢
  rcases h with ⟨⟨⟨⟨hb, h0⟩, h1⟩, h2⟩, h3⟩ | ⟨⟨⟨⟨⟨hb, h0⟩, h1⟩, h2⟩, h3⟩, h4⟩
  · refine Or.inl ⟨⟨⟨⟨by simp [List.length_append]; omega, ?_⟩, ?_⟩, ?_⟩, ?_⟩
    · rw [byteAt_append_right a b i]; exact h0
    · rw [show a.length + i + 1 = a.length + (i + 1) by omega, byteAt_append_right]; exact h1
    · rw [show a.length + i + 2 = a.length + (i + 2) by omega, byteAt_append_right]; exact h2
    · rw [show a.length + i + 3 = a.length + (i + 3) by omega, byteAt_append_right]; exact h3
  · refine Or.inr ⟨⟨⟨⟨⟨by simp [List.length_append]; omega, ?_⟩, ?_⟩, ?_⟩, ?_⟩, ?_⟩
    · rw [byteAt_append_right a b i]; exact h0
    · rw [show a.length + i + 1 = a.length + (i + 1) by omega, byteAt_append_right]; exact h1
    · rw [show a.length + i + 2 = a.length + (i + 2) by omega, byteAt_append_right]; exact h2
    · rw [show a.length + i + 3 = a.length + (i + 3) by omega, byteAt_append_right]; exact h3
    · rw [show a.length + i + 4 = a.length + (i + 4) by omega, byteAt_append_right]; exact h4

/-- Payload-level IDR containment is monotone under right append. -/
theorem containsIdr_append_left (a b : List Nat) (h : containsIdr a = true) :
    containsIdr (a ++ b) = true := by
  simp only [containsIdr, List.any_eq_true, List.mem_range] at h ⊢
  obtain ⟨j, hj, hh⟩ := h
  exact ⟨j, by simp [List.length_append]; omega, hasIdrAt_append_left a b j hh⟩

/-- Payload-level IDR containment is monotone under left append. -/
theorem containsIdr_append_right (a b : List Nat) (h : containsIdr b = true) :
    containsIdr (a ++ b) = true := by
  simp only [containsIdr, List.any_eq_true, List.mem_range] at h ⊢
  obtain ⟨j, hj, hh⟩ := h
  exact ⟨a.length + j, by simp [List.length_append]; omega, hasIdrAt_shift a b j hh⟩

/-- Soundness of the per-packet IDR scan: a hit implies the chunk really
    contains a start-code-plus-IDR-NAL pattern. -/
theorem idrScanGo_sound (pay : List Nat) :
    ∀ fuel i, idrScanGo pay i fuel = true → containsIdr pay = true := by
  intro fuel
  induction fuel with
  | zero => intro i h; simp [idrScanGo] at h
  | succ n ih =>
    intro i h
    simp only [idrScanGo] at h
    split at h
    case isTrue hlen =>
      split at h
      case isTrue h00 =>
        split at h
        case isTrue h2 =>
          rw [Bool.or_eq_true] at h
          rcases h with h5 | h5
          · simp only [Bool.and_eq_true] at h00
            simp only [containsIdr, List.any_eq_true, List.mem_range]
            refine ⟨i, by omega, ?_⟩
            simp only [hasIdrAt, Bool.or_eq_true, Bool.and_eq_true, decide_eq_true_eq]
            exact Or.inl ⟨⟨⟨⟨by omega, h00.1⟩, h00.2⟩, h2⟩, h5⟩
          · exact ih _ h5
        case isFalse h2 =>
          split at h
          case isTrue h4 =>
            rw [Bool.or_eq_true] at h
            rcases h with h5 | h5
            · simp only [Bool.and_eq_true] at h00 h4
              simp only [containsIdr, List.any_eq_true, List.mem_range]
              refine ⟨i, by omega, ?_⟩
              simp only [hasIdrAt, Bool.or_eq_true, Bool.and_eq_true, decide_eq_true_eq]
              exact Or.inr ⟨⟨⟨⟨⟨by omega, h00.1⟩, h00.2⟩, h4.1⟩, h4.2⟩, h5⟩
            · exact ih _ h5
          case isFalse h4 => exact ih _ h
      case isFalse h00 => exact ih _ h
    case isFalse hlen => exact absurd h (by simp)

/-- Soundness of `idrScan`. -/
theorem idrScan_sound (pay : List Nat) (h : idrScan pay = true) :
    containsIdr pay = true :=
  idrScanGo_sound pay (pay.length + 1) 0 h

/-- Invariant of the packet loop: whenever the key flag is set, the
    accumulated access unit contains an IDR start-code pattern. -/
theorem readOnePesGo_key_mono (data : List Nat) (vpid : Nat) :
    ∀ fuel offset (au : List Nat) (started key : Bool) (dcnt : Nat),
      (key = true → containsIdr au = true) →
      ∀ r, readOnePesGo data vpid fuel offset au started key dcnt = r →
      (r.key = true → containsIdr r.au = true) := by
  intro fuel
  induction fuel with
  | zero =>
    intro offset au started key dcnt hinv r hr
    simp only [readOnePesGo] at hr
    subst hr
    exact hinv
  | succ n ih =>
    intro offset au started key dcnt hinv r hr
    simp only [readOnePesGo] at hr
    by_cases h1 : offset + 188 ≤ data.length
    case neg => rw [if_neg h1] at hr; subst hr; exact hinv
    case pos =>
      rw [if_pos h1] at hr
      by_cases h2 : (byteAt data offset != 0x47) = true
      · rw [if_pos h2] at hr
        by_cases h3 : dcnt + 1 ≥ 128
        · rw [if_pos h3] at hr; subst hr; exact hinv
        · rw [if_neg h3] at hr; exact ih _ _ _ _ _ hinv r hr
      · rw [if_neg h2] at hr
        by_cases h4 : (tsPid data offset != vpid) = true
        · rw [if_pos h4] at hr; exact ih _ _ _ _ _ hinv r hr
        · rw [if_neg h4] at hr
          cases h5 : adaptFieldLen data offset with
          | none => simp only [h5] at hr; exact ih _ _ _ _ _ hinv r hr
          | some adapt =>
            simp only [h5] at hr
            by_cases h6 : (188 - 4 - adapt == 0
                || decide (offset + 4 + adapt > data.length)) = true
            · rw [if_pos h6] at hr; exact ih _ _ _ _ _ hinv r hr
            · rw [if_neg h6] at hr
              by_cases h7 : pusiFlag data offset = true
              · rw [if_pos h7] at hr
                by_cases h8 : started = true
                · rw [if_pos h8] at hr; subst hr; exact hinv
                · rw [if_neg h8] at hr
                  by_cases h9 : 188 - 4 - adapt < 9
                  · rw [if_pos h9] at hr; exact ih _ _ _ _ _ hinv r hr
                  · rw [if_neg h9] at hr
                    by_cases h10 : (!(byteAt data (offset + 4 + adapt) == 0
                        && byteAt data (offset + 4 + adapt + 1) == 0
                        && byteAt data (offset + 4 + adapt + 2) == 1)) = true
                    · rw [if_pos h10] at hr; exact ih _ _ _ _ _ hinv r hr
                    · rw [if_neg h10] at hr
                      by_cases h11 : 9 + byteAt data (offset + 4 + adapt + 8)
                          > 188 - 4 - adapt
                      · rw [if_pos h11] at hr; exact ih _ _ _ _ _ hinv r hr
                      · rw [if_neg h11] at hr
                        by_cases h12 : au.length + (188 - 4 - adapt
                            - (9 + byteAt data (offset + 4 + adapt + 8))) > AU_BUF_SIZE
                        · rw [if_pos h12] at hr; subst hr; exact hinv
                        · rw [if_neg h12] at hr
                          refine ih _ _ _ _ _ ?_ r hr
                          intro hk
                          rw [Bool.or_eq_true] at hk
                          rcases hk with hk | hk
                          · exact containsIdr_append_left _ _ (hinv hk)
                          · exact containsIdr_append_right _ _ (idrScan_sound _ hk)
              · rw [if_neg h7] at hr
                by_cases h13 : au.length + (188 - 4 - adapt) > AU_BUF_SIZE
                · rw [if_pos h13] at hr; subst hr; exact hinv
                · rw [if_neg h13] at hr
                  refine ih _ _ _ _ _ ?_ r hr
                  intro hk
                  rw [Bool.or_eq_true] at hk
                  rcases hk with hk | hk
                  · exact containsIdr_append_left _ _ (hinv hk)
                  · exact containsIdr_append_right _ _ (idrScan_sound _ hk)

/-- C3 (amended): the key-frame flag is sound — every access unit flagged
    `isKeyFrame = true` contains a 3-byte or 4-byte start code followed by
    a NAL whose low 5 type bits equal 5. (Completeness fails: a pattern in
    the final five bytes of a packet payload chunk is missed, see the C3
    counterexample.) -/
theorem c3_keyflag_sound (d : List Nat) (v off : Nat) (f : HelperH264Frame)
    (p' : ParserState) (hf : getH264Frame ⟨d, v, off⟩ = (some f, p'))
    (hk : f.isKeyFrame = true) : containsIdr f.buffer = true := by
  simp only [getH264Frame] at hf
  split at hf
  · cases hf
  · rw [Prod.mk.injEq] at hf
    obtain ⟨hf1, hf2⟩ := hf
    have hfv := Option.some.inj hf1
    subst hfv
    exact readOnePesGo_key_mono d v (d.length / 188 + 1) off [] false false 0
      (fun h => by cases h) _ rfl hk

/-- Witness for C3 (amended) on a concrete key-frame stream. -/
theorem c3_keyflag_witness : containsIdr c3wPayload = true :=
  c3_keyflag_sound c3wData 256 0 ⟨true, c3wPayload, 175⟩ ⟨c3wData, 256, 188⟩ (by decide) rfl

/-- The block decomposition yields exactly one block per segment line. -/
theorem segBlocks_length : ∀ (ls pending : List Str),
    (segBlocks ls pending).length = (ls.filter isSegmentLine).length := by
  intro ls
  induction ls with
  | nil => intro pending; simp [segBlocks]
  | cons l rest ih =>
    intro pending
    by_cases h : isSegmentLine l = true
    · simp [segBlocks, h, List.filter_cons, ih]
    · simp only [Bool.not_eq_true] at h
      simp [segBlocks, h, List.filter_cons, ih]

/-- The block decomposition preserves the segment lines in file order. -/
theorem segBlocks_snd : ∀ (ls pending : List Str),
    (segBlocks ls pending).map Prod.snd = ls.filter isSegmentLine := by
  intro ls
  induction ls with
  | nil => intro pending; simp [segBlocks]
  | cons l rest ih =>
    intro pending
    by_cases h : isSegmentLine l = true
    · simp [segBlocks, h, List.filter_cons, ih]
    · simp only [Bool.not_eq_true] at h
      simp [segBlocks, h, List.filter_cons, ih]

/-- Pushing a well-formed EXTINF directive makes it the nearest one. -/
theorem nearestExtinfDur_cons_pos (l : Str) (pending : List Str)
    (h : isExtinfCC l = true) :
    nearestExtinfDur (l :: pending) = extinfVal l := by
  simp [nearestExtinfDur, List.find?, h]

/-- Pushing a non-EXTINF directive leaves the nearest duration unchanged. -/
theorem nearestExtinfDur_cons_neg (l : Str) (pending : List Str)
    (h : isExtinfCC l = false) :
    nearestExtinfDur (l :: pending) = nearestExtinfDur pending := by
  simp [nearestExtinfDur, List.find?, h]

/-- Refinement of the parser loop against the spec-side block view: with
    every EXTINF duration parseable, the loop emits exactly the segments of
    the block decomposition, with the loop accumulator `dur` tracking the
    nearest preceding EXTINF of the pending block. -/
theorem parseLinesGo_spec (base : Str) :
    ∀ (lines pending : List Str) (acc : List M3U8Segment),
      wfLines (lines.map stripCR) = true →
      parseLinesGo base lines (nearestExtinfDur pending) acc =
        .ok (acc.reverse ++ (segBlocks (lines.map stripCR) pending).map (mkSpecSeg base)) := by
  intro lines
  induction lines with
  | nil => intro pending acc hwf; simp [parseLinesGo, segBlocks]
  | cons l rest ih =>
    intro pending acc hwf
    simp only [List.map_cons, wfLines, List.all_cons, Bool.and_eq_true] at hwf
    have hwfr : wfLines (rest.map stripCR) = true := hwf.2
    have hwfl := hwf.1
    rw [Bool.or_eq_true] at hwfl
    simp only [parseLinesGo, List.map_cons]
    by_cases hdir : isDirectiveOrEmpty (stripCR l) = true
    · rw [if_pos hdir]
      have hseg : isSegmentLine (stripCR l) = false := by
        simp [isSegmentLine, hdir]
      have hblocks : segBlocks (stripCR l :: rest.map stripCR) pending
          = segBlocks (rest.map stripCR) (stripCR l :: pending) := by
        simp [segBlocks, hseg]
      by_cases hpre : extinfTag.isPrefixOf (stripCR l) = true
      · rw [if_pos hpre]
        cases hc : findCharIdx ':' (stripCR l) with
        | none =>
          have hcc : isExtinfCC (stripCR l) = false := by
            simp [isExtinfCC, hc]
          rw [hblocks, ← nearestExtinfDur_cons_neg (stripCR l) pending hcc]
          exact ih (stripCR l :: pending) acc hwfr
        | some c =>
          cases hm : findCharIdx ',' (stripCR l) with
          | none =>
            have hcc : isExtinfCC (stripCR l) = false := by
              simp [isExtinfCC, hm]
            rw [hblocks, ← nearestExtinfDur_cons_neg (stripCR l) pending hcc]
            exact ih (stripCR l :: pending) acc hwfr
          | some m =>
            have hcc : isExtinfCC (stripCR l) = true := by
              simp [isExtinfCC, hpre, hc, hm]
            have hds : extinfDurStr (stripCR l)
                = ((stripCR l).drop (c + 1)).take (m - c - 1) := by
              simp [extinfDurStr, hc, hm]
            have hsome : (stodModel (extinfDurStr (stripCR l))).isSome = true := by
              rcases hwfl with hbad | hsome
              · rw [hcc] at hbad; cases hbad
              · exact hsome
            obtain ⟨d, hd⟩ := Option.isSome_iff_exists.mp hsome
            have hd2 : stodModel (((stripCR l).drop (c + 1)).take (m - c - 1))
                = some d := by rw [← hds]; exact hd
            simp only [hd2]
            have hdv : nearestExtinfDur (stripCR l :: pending) = d := by
              rw [nearestExtinfDur_cons_pos (stripCR l) pending hcc]
              simp [extinfVal, hd]
            rw [hblocks, ← hdv]
            exact ih (stripCR l :: pending) acc hwfr
      · rw [if_neg hpre]
        have hpf : extinfTag.isPrefixOf (stripCR l) = false := by
          cases hx : extinfTag.isPrefixOf (stripCR l)
          · rfl
          · exact absurd hx hpre
        have hcc : isExtinfCC (stripCR l) = false := by
          simp [isExtinfCC, hpf]
        rw [hblocks, ← nearestExtinfDur_cons_neg (stripCR l) pending hcc]
        exact ih (stripCR l :: pending) acc hwfr
    · rw [if_neg hdir]
      have hdf : isDirectiveOrEmpty (stripCR l) = false := by
        cases hx : isDirectiveOrEmpty (stripCR l)
        · rfl
        · exact absurd hx hdir
      have hseg : isSegmentLine (stripCR l) = true := by
        simp [isSegmentLine, hdf]
      have hblocks : segBlocks (stripCR l :: rest.map stripCR) pending
          = (pending, stripCR l) :: segBlocks (rest.map stripCR) [] := by
        simp [segBlocks, hseg]
      have hstep := ih [] (mkSpecSeg base (pending, stripCR l) :: acc) hwfr
      rw [hblocks]
      refine hstep.trans ?_
      simp [List.reverse_cons, List.append_assoc]

/-- C4: on a well-formed document, `parseM3U8` produces exactly the
    spec-side segments — one per non-comment, non-empty line in file order
    (so exactly N segments), each url verbatim for `http(s)://` lines and
    base-concatenated otherwise, each duration the value of the nearest
    preceding `#EXTINF` since the previous emitted segment (0.0 when
    absent, reset after each emitted segment — the block structure). -/
theorem c4_parse_refines_spec (doc : List Str) (base : Str) (hwf : wfDoc doc = true) :
    parseM3U8 (some doc) base =
      .ok (c4SpecSegs doc base, !(c4SpecSegs doc base).isEmpty) ∧
    (c4SpecSegs doc base).length = ((doc.map stripCR).filter isSegmentLine).length ∧
    (c4SpecSegs doc base).map (fun s => s.url) =
      ((doc.map stripCR).filter isSegmentLine).map (urlOfLine base) := by
  have h := parseLinesGo_spec base doc [] [] hwf
  rw [show nearestExtinfDur ([] : List Str) = 0 from rfl] at h
  refine ⟨?_, ?_, ?_⟩
  · simp [parseM3U8, h, c4SpecSegs, Except.map]
  · simp [c4SpecSegs, segBlocks_length]
  · simp only [c4SpecSegs, List.map_map]
    rw [← segBlocks_snd (doc.map stripCR) []]
    simp only [List.map_map]
    rfl

/-- Witness for C4 on a concrete document. -/
theorem c4_parse_witness :
    parseM3U8 (some docC4w) [] =
      .ok (c4SpecSegs docC4w [], !(c4SpecSegs docC4w []).isEmpty) :=
  (c4_parse_refines_spec docC4w [] (by decide)).1

/-- A line with the EXTINF tag prefix starts with a hash. -/
theorem extinfTag_isDirective (l : Str) (h : extinfTag.isPrefixOf l = true) :
    isDirectiveOrEmpty l = true := by
  cases l with
  | nil => rfl
  | cons c cs =>
    rw [show extinfTag = '#' :: "EXTINF:".toList from rfl] at h
    simp only [List.isPrefixOf, Bool.and_eq_true] at h
    simp [isDirectiveOrEmpty]
    have := h.1
    simp only [beq_iff_eq] at this
    exact this.symm

/-- C10: an `#EXTINF:<s>,<t>` directive whose `<s>` does not parse as a
    number makes `parseM3U8` abort by exception propagation (`std::stod`
    throws and nothing catches it inside the parser), not by returning a
    ParseError result; a directive lacking the comma is silently ignored
    instead (duration untouched). -/
theorem c10_stod_exception_propagates (base : Str) :
    (∀ (l : Str) (rest : List Str) (dur : Rat) (acc : List M3U8Segment) (c m : Nat),
      extinfTag.isPrefixOf (stripCR l) = true →
      findCharIdx ':' (stripCR l) = some c →
      findCharIdx ',' (stripCR l) = some m →
      stodModel (((stripCR l).drop (c + 1)).take (m - c - 1)) = none →
      parseLinesGo base (l :: rest) dur acc = .error ()) ∧
    (∀ (l : Str) (rest : List Str) (dur : Rat) (acc : List M3U8Segment),
      extinfTag.isPrefixOf (stripCR l) = true →
      findCharIdx ',' (stripCR l) = none →
      parseLinesGo base (l :: rest) dur acc = parseLinesGo base rest dur acc) := by
  constructor
  · intro l rest dur acc c m hpre hc hm hs
    simp only [parseLinesGo]
    rw [if_pos (extinfTag_isDirective _ hpre), if_pos hpre]
    simp only [hc, hm, hs]
  · intro l rest dur acc hpre hm
    simp only [parseLinesGo]
    rw [if_pos (extinfTag_isDirective _ hpre), if_pos hpre]
    cases hc : findCharIdx ':' (stripCR l) <;> simp [hc, hm]

/-- Witness for C10 on concrete malformed directives. -/
theorem c10_witness :
    parseLinesGo [] ["#EXTINF:abc,x".toList] 0 [] = .error () ∧
    parseLinesGo [] ["#EXTINF:abc".toList] 7 [] = parseLinesGo [] ([] : List Str) 7 [] :=
  ⟨(c10_stod_exception_propagates []).1 "#EXTINF:abc,x".toList [] 0 [] 7 11
     (by decide) (by decide) (by decide) (by decide),
   (c10_stod_exception_propagates []).2 "#EXTINF:abc".toList [] 7 []
     (by decide) (by decide)⟩

/-- C6 (amended): restricted to documents that raise no `std::stod`
    exception, `parseM3U8` returns the ParseError result (`false`) exactly
    when the document cannot be opened or it has no segment lines; and
    `initialize` on a local zero-segment M3U8 source fails, so `main`
    exits before starting the send loop. -/
theorem c6_parse_error_conditions (doc : List Str) (base : Str) (hwf : wfDoc doc = true) :
    ((∃ segs, parseM3U8 (some doc) base = .ok (segs, false)) ↔
      (doc.map stripCR).filter isSegmentLine = []) ∧
    parseM3U8 none base = .ok ([], false) ∧
    (∀ (env : Env) (input : Str) (st : PMState),
      isM3U8 input = true → isURL input = false →
      env.textFile input = some doc →
      (doc.map stripCR).filter isSegmentLine = [] →
      pmInit env input st =
        .ok (false, {st with currentVideoFile := input, currentSegmentIndex := 0,
                             segmentPaths := ([] : List Str), isPlaylist := true})) := by
  have h := parseLinesGo_spec base doc [] [] hwf
  rw [show nearestExtinfDur ([] : List Str) = 0 from rfl] at h
  have hpm : parseM3U8 (some doc) base
      = .ok (c4SpecSegs doc base, !(c4SpecSegs doc base).isEmpty) := by
    simp [parseM3U8, h, c4SpecSegs, Except.map]
  refine ⟨?_, rfl, ?_⟩
  · constructor
    · rintro ⟨segs, hs⟩
      rw [hpm] at hs
      simp only [Except.ok.injEq, Prod.mk.injEq] at hs
      have hempty : c4SpecSegs doc base = [] := by
        rcases hs with ⟨hs1, hs2⟩
        cases hxx : c4SpecSegs doc base with
        | nil => rfl
        | cons a t => rw [hxx] at hs2; simp at hs2
      have hlen := segBlocks_length (doc.map stripCR) []
      have : (segBlocks (doc.map stripCR) []).length = 0 := by
        have : (c4SpecSegs doc base).length = 0 := by rw [hempty]; rfl
        simpa [c4SpecSegs] using this
      rw [this] at hlen
      exact List.length_eq_zero.mp hlen.symm
    · intro hfil
      have hblocks : segBlocks (doc.map stripCR) [] = [] := by
        have hlen := segBlocks_length (doc.map stripCR) []
        rw [hfil] at hlen
        exact List.length_eq_zero.mp hlen
      have hempty : c4SpecSegs doc base = [] := by simp [c4SpecSegs, hblocks]
      exact ⟨[], by rw [hpm, hempty]; rfl⟩
  · intro env input st hm hu htf hfil
    have h0 := parseLinesGo_spec [] doc [] [] hwf
    rw [show nearestExtinfDur ([] : List Str) = 0 from rfl] at h0
    have hblocks : segBlocks (doc.map stripCR) [] = [] := by
      have hlen := segBlocks_length (doc.map stripCR) []
      rw [hfil] at hlen
      exact List.length_eq_zero.mp hlen
    have hp0 : parseM3U8 (some doc) [] = .ok ([], false) := by
      simp [parseM3U8, h0, hblocks, Except.map]
    have hsetup : internalSetupPlaylist env input {st with currentVideoFile := input} =
        .ok (false, {st with currentVideoFile := input, currentSegmentIndex := 0},
             ([] : List Str), true) := by
      simp only [internalSetupPlaylist]
      rw [if_neg (by simp [hu])]
      simp only [htf, hp0]
      simp
    simp only [pmInit]
    rw [if_pos hm, hsetup]

/-- C6 counterexample: a document whose only line is `#EXTINF:x,` has zero
    segment lines — the claim then demands a ParseError return — but the
    parser aborts by `std::stod` exception instead of returning at all. -/
theorem c6_counterexample :
    parseM3U8 (some docC6) [] = .error () ∧
    (docC6.map stripCR).filter isSegmentLine = [] ∧
    (∀ segs ok, parseM3U8 (some docC6) [] ≠ .ok (segs, ok)) := by
  refine ⟨rfl, rfl, ?_⟩
  intro segs ok h
  exact Except.noConfusion
    ((show parseM3U8 (some docC6) [] = .error () from rfl).symm.trans h)

/-- Witness for C6 (amended) on a concrete zero-segment document. -/
theorem c6_conditions_witness :
    ∃ segs, parseM3U8 (some (["#EXTM3U".toList] : List Str)) [] = .ok (segs, false) :=
  ((c6_parse_error_conditions ["#EXTM3U".toList] [] (by decide)).1).mpr (by decide)

/-- A successful playlist setup never returns an empty path list. -/
theorem internalSetupPlaylist_success_nonempty (env : Env) (path : Str) (st st' : PMState)
    (paths : List Str) (ipl : Bool)
    (h : internalSetupPlaylist env path st = .ok (true, st', paths, ipl)) :
    paths ≠ [] := by
  simp only [internalSetupPlaylist] at h
  repeat' split at h
  all_goals try cases h
  rename_i hne
  simp only [Except.ok.injEq, Prod.mk.injEq] at h
  obtain ⟨-, -, hpaths, -⟩ := h
  subst hpaths
  intro hnil
  rw [hnil] at hne
  exact hne rfl

/-- Invariant justifying the C2 hypothesis: whenever a preload publishes
    the pending triple (sets the ready flag), the pending segment list is
    non-empty. -/
theorem preload_success_pending_nonempty (env : Env) (input : Str) (st st' : PMState)
    (h : preloadNewPlaylist env input st = .ok (true, st')) :
    st'.newPlaylistReady = true ∧ st'.newSegmentPaths ≠ [] := by
  simp only [preloadNewPlaylist] at h
  split at h
  · cases h
  · rename_i r heq
    split at h
    · rename_i hr1
      cases h
      refine ⟨rfl, ?_⟩
      simp only []
      by_cases hm : isM3U8 input = true
      · rw [if_pos hm] at heq
        exact internalSetupPlaylist_success_nonempty env input st r.2.1 r.2.2.1 r.2.2.2
          (by rw [heq, ← hr1])
      · rw [if_neg hm] at heq
        cases heq
        simp [internalSetupSingleFile]
    · cases h
